import Mathlib

/-!
# intercom-go, Users resource (`user_api.go`)

A shallow embedding of `UserAPI` and its five operations `find`, `list`,
`scroll`, `save` and `delete`, together with the two decoding helpers
`unmarshalToUser` and `unmarshalListToUser`.

The two collaborators of the component, the HTTP transport
(`interfaces.HTTPClient`) and the JSON codec (`encoding/json`), are
arbitrary: every operation is written in state-passing style over a state
`σ` owned by the collaborators, and every theorem quantifies over them.
A recording double (`countingClient`, `countingCodec`) appends each
transport call and each decode attempt to a log, which is how "exactly one
call" and "no call at all" are stated.

A Go result pair `(v, err)` is a Lean pair `(v, e)` with `e : Option GoError`,
`none` being Go's `nil` error.
-/

namespace Intercom

/-! ## Data model -/

/-- A Go `[]byte`. The component never inspects a body; it hands it to the codec. -/
abbrev Bytes := List UInt8

/-- Modelled from the spec: `interfaces.HTTPError` is declared outside `user_api.go`;
the three fields are the ones the composite literal at lines 113-117 sets
(status code, service error code, message). -/
structure HTTPError where
  StatusCode : Int := 0
  Code : String := ""
  Message : String := ""
  deriving DecidableEq, Repr

/-- A Go `error` value that is not `nil`: the result of `errors.New`, an
`interfaces.HTTPError`, or a value of any other dynamic type (a decode error of
the JSON codec, a network error of the transport), identified by a label. -/
inductive GoError where
  | errorString (s : String)
  | httpError (e : HTTPError)
  | other (label : String)
  deriving DecidableEq, Repr

/-- Modelled from the spec: the dynamically typed value of a custom attribute
(null, bool, number, string, array, object). Numbers are kept as their literal. -/
inductive JSONValue where
  | null
  | bool (b : Bool)
  | number (literal : String)
  | string (s : String)
  | array (xs : List JSONValue)
  | object (kvs : List (String × JSONValue))

/-- Modelled from the spec: `UserCompany` is declared outside `user_api.go`; a
minimal company reference (company ID and name). -/
structure UserCompany where
  CompanyID : String := ""
  Name : String := ""

/-- Modelled from the spec: `UserIdentifiers` is declared outside `user_api.go`;
`find` reads the three string fields `ID`, `UserID` and `Email`. -/
structure UserIdentifiers where
  ID : String := ""
  UserID : String := ""
  Email : String := ""
  deriving DecidableEq, Repr

/-- Modelled from the spec: `User` is declared outside `user_api.go`. The record
of section 3 of the spec: internal ID, email, phone, external user ID, name, three
timestamps, last-seen IP and user agent, the unsubscribe flag, companies, custom
attributes; plus the two request flags that `requestUser` carries and that can
only come from the `User` handed to `save`. A Go `*bool` is an `Option Bool`, a
nil or empty slice or map is `[]`. Every field defaults to its Go zero value. -/
structure User where
  ID : String := ""
  Email : String := ""
  Phone : String := ""
  UserID : String := ""
  Name : String := ""
  SignedUpAt : Int := 0
  RemoteCreatedAt : Int := 0
  LastRequestAt : Int := 0
  LastSeenIP : String := ""
  UnsubscribedFromEmails : Option Bool := none
  Companies : List UserCompany := []
  CustomAttributes : List (String × JSONValue) := []
  UpdateLastRequestAt : Option Bool := none
  NewSession : Option Bool := none
  LastSeenUserAgent : String := ""

/-- Modelled from the spec: `UserList` is declared outside `user_api.go`; an ordered
sequence of users plus pagination metadata (page, total count, scroll cursor). -/
structure UserList where
  Page : Int := 0
  TotalCount : Int := 0
  Users : List User := []
  ScrollParam : String := ""

/-- Modelled from the spec: `userListParams` is declared outside `user_api.go`;
caller-supplied filter parameters (pagination, segment, tag), passed through. -/
structure userListParams where
  Page : Int := 0
  PerPage : Int := 0
  SegmentID : String := ""
  TagID : String := ""
  deriving DecidableEq, Repr

/-- Modelled from the spec: `scrollParams` is declared outside `user_api.go`; the
composite literal at line 78 sets its only field, the string `ScrollParam`. -/
structure scrollParams where
  ScrollParam : String := ""
  deriving DecidableEq, Repr

/-- The `requestScroll` record of lines 25-27. -/
structure requestScroll where
  ScrollParam : String := ""
  deriving DecidableEq, Repr

/-- The `requestUser` record of lines 29-45, field for field. -/
structure requestUser where
  ID : String := ""
  Email : String := ""
  Phone : String := ""
  UserID : String := ""
  Name : String := ""
  SignedUpAt : Int := 0
  RemoteCreatedAt : Int := 0
  LastRequestAt : Int := 0
  LastSeenIP : String := ""
  UnsubscribedFromEmails : Option Bool := none
  Companies : List UserCompany := []
  CustomAttributes : List (String × JSONValue) := []
  UpdateLastRequestAt : Option Bool := none
  NewSession : Option Bool := none
  LastSeenUserAgent : String := ""

/-- The `userSearchResponse` record of lines 47-49. -/
structure userSearchResponse where
  Users : List User := []

/-! ## Collaborators -/

/-- The `query` argument of `Get` and `Delete` (a Go `interface{}`): `nil`, or one
of the three parameter records this file passes. -/
inductive Query where
  | nil
  | identifiers (p : UserIdentifiers)
  | listParams (p : userListParams)
  | scroll (p : scrollParams)
  deriving DecidableEq, Repr

/-- Modelled from the spec: `interfaces.HTTPClient` is declared outside
`user_api.go`; `Get(path, query)`, `Post(path, body)` and `Delete(path, query)`,
each returning a Go pair `([]byte, error)`. The transport may keep state `σ`.
The only body this file posts is a `requestUser`. -/
structure HTTPClient (σ : Type) where
  Get : String → Query → σ → (Bytes × Option GoError) × σ
  Post : String → requestUser → σ → (Bytes × Option GoError) × σ
  Delete : String → Query → σ → (Bytes × Option GoError) × σ

/-- The JSON codec, `json.Unmarshal(data, &target)`, at the three target types
this file decodes into. It receives the body and the initial target and yields the
target as the codec left it together with the codec's error. Like the transport it is
given the collaborators' state, so that a recording double can log decode attempts;
a codec that does not touch the state is the special case of the Go library. -/
structure JSONCodec (σ : Type) where
  UnmarshalUser : Bytes → User → σ → (User × Option GoError) × σ
  UnmarshalUserList : Bytes → UserList → σ → (UserList × Option GoError) × σ
  UnmarshalSearch : Bytes → userSearchResponse → σ → (userSearchResponse × Option GoError) × σ

/-- The `UserAPI` record of lines 21-23. -/
structure UserAPI (σ : Type) where
  httpClient : HTTPClient σ

/-! ## Operations -/

/-- Lines 92-99. -/
def unmarshalToUser {σ : Type} (json : JSONCodec σ) (r : Bytes × Option GoError) (s : σ) :
    (User × Option GoError) × σ :=
  let savedUser : User := {}
  match r.2 with
  | some err => ((savedUser, some err), s)
  | none => json.UnmarshalUser r.1 savedUser s

/-- Lines 101-121. -/
def unmarshalListToUser {σ : Type} (json : JSONCodec σ) (r : Bytes × Option GoError) (s : σ) :
    (User × Option GoError) × σ :=
  let saved : User := {}
  match r.2 with
  | some err => ((saved, some err), s)
  | none =>
    let resp : userSearchResponse := {}
    let d := json.UnmarshalSearch r.1 resp s
    match d.1.2 with
    | some err => ((saved, some err), d.2)
    | none =>
      match d.1.1.Users with
      | [] => ((saved, some (GoError.httpError
          { StatusCode := 404, Code := "not_found", Message := "User Not Found" })), d.2)
      | u :: _ => ((u, none), d.2)

/-- Lines 51-62. -/
def UserAPI.find {σ : Type} (api : UserAPI σ) (json : JSONCodec σ) (params : UserIdentifiers)
    (s : σ) : (User × Option GoError) × σ :=
  let user : User := {}
  if params.ID ≠ "" then
    let g := api.httpClient.Get ("/users/" ++ params.ID) Query.nil s
    unmarshalToUser json g.1 g.2
  else if params.UserID ≠ "" ∨ params.Email ≠ "" then
    let g := api.httpClient.Get "/users" (Query.identifiers params) s
    unmarshalListToUser json g.1 g.2
  else
    ((user, some (GoError.errorString "Missing User Identifier")), s)

/-- Lines 64-72. -/
def UserAPI.list {σ : Type} (api : UserAPI σ) (json : JSONCodec σ) (params : userListParams)
    (s : σ) : (UserList × Option GoError) × σ :=
  let userList : UserList := {}
  let g := api.httpClient.Get "/users" (Query.listParams params) s
  match g.1.2 with
  | some err => ((userList, some err), g.2)
  | none => json.UnmarshalUserList g.1.1 userList g.2

/-- Lines 74-86. -/
def UserAPI.scroll {σ : Type} (api : UserAPI σ) (json : JSONCodec σ) (scrollParam : String)
    (s : σ) : (UserList × Option GoError) × σ :=
  let userList : UserList := {}
  let url := "/users/scroll"
  let params : scrollParams := { ScrollParam := scrollParam }
  let g := api.httpClient.Get url (Query.scroll params) s
  match g.1.2 with
  | some err => ((userList, some err), g.2)
  | none => json.UnmarshalUserList g.1.1 userList g.2

/-- Modelled from the spec: `RequestUserMapper.ConvertUser` is defined outside
`user_api.go`. It builds the wire record from the `User`, field by field, so that
a field the caller left unset stays at its zero value in the request. -/
def ConvertUser (user : User) : requestUser :=
  { ID := user.ID
    Email := user.Email
    Phone := user.Phone
    UserID := user.UserID
    Name := user.Name
    SignedUpAt := user.SignedUpAt
    RemoteCreatedAt := user.RemoteCreatedAt
    LastRequestAt := user.LastRequestAt
    LastSeenIP := user.LastSeenIP
    UnsubscribedFromEmails := user.UnsubscribedFromEmails
    Companies := user.Companies
    CustomAttributes := user.CustomAttributes
    UpdateLastRequestAt := user.UpdateLastRequestAt
    NewSession := user.NewSession
    LastSeenUserAgent := user.LastSeenUserAgent }

/-- Lines 88-90. The `*User` argument is the record it points to. -/
def UserAPI.save {σ : Type} (api : UserAPI σ) (json : JSONCodec σ) (user : User) (s : σ) :
    (User × Option GoError) × σ :=
  let p := api.httpClient.Post "/users" (ConvertUser user) s
  unmarshalToUser json p.1 p.2

/-- Lines 123-131. -/
def UserAPI.delete {σ : Type} (api : UserAPI σ) (json : JSONCodec σ) (id : String) (s : σ) :
    (User × Option GoError) × σ :=
  let user : User := {}
  let g := api.httpClient.Delete ("/users/" ++ id) Query.nil s
  match g.1.2 with
  | some err => ((user, some err), g.2)
  | none => json.UnmarshalUser g.1.1 user g.2

/-! ## The wire keys of a request body -/

/-- The key of a string field tagged `omitempty`: absent when the string is empty. -/
def keyIfString (key : String) (v : String) : List String :=
  if v = "" then [] else [key]

/-- The key of an `int64` field tagged `omitempty`: absent when the value is zero. -/
def keyIfInt (key : String) (v : Int) : List String :=
  if v = 0 then [] else [key]

/-- The key of a `*bool` field tagged `omitempty`: absent when the pointer is nil. -/
def keyIfPtr (key : String) (v : Option Bool) : List String :=
  match v with
  | none => []
  | some _ => [key]

/-- The key of a slice or map field tagged `omitempty`: absent when its length is zero. -/
def keyIfLen {α : Type} (key : String) (v : List α) : List String :=
  match v with
  | [] => []
  | _ :: _ => [key]

/-- Modelled from the spec: the encoding of the body is done by the transport,
outside `user_api.go`. The keys of the JSON object are those of the struct tags of
`requestUser` (lines 30-44), in declaration order; every tag carries `omitempty`,
so a key is present exactly when its field is not at its zero value. -/
def marshalKeys (r : requestUser) : List String :=
  keyIfString "id" r.ID ++
  keyIfString "email" r.Email ++
  keyIfString "phone" r.Phone ++
  keyIfString "user_id" r.UserID ++
  keyIfString "name" r.Name ++
  keyIfInt "signed_up_at" r.SignedUpAt ++
  keyIfInt "remote_created_at" r.RemoteCreatedAt ++
  keyIfInt "last_request_at" r.LastRequestAt ++
  keyIfString "last_seen_ip" r.LastSeenIP ++
  keyIfPtr "unsubscribed_from_emails" r.UnsubscribedFromEmails ++
  keyIfLen "companies" r.Companies ++
  keyIfLen "custom_attributes" r.CustomAttributes ++
  keyIfPtr "update_last_request_at" r.UpdateLastRequestAt ++
  keyIfPtr "new_session" r.NewSession ++
  keyIfString "last_seen_user_agent" r.LastSeenUserAgent

/-! ## Recording doubles -/

/-- The three decode targets. -/
inductive Target where
  | user
  | userList
  | search
  deriving DecidableEq, Repr

/-- What a recording double writes down: a transport call with its arguments, or a
decode attempt with its target type and body. -/
inductive Event where
  | get (path : String) (query : Query)
  | post (path : String) (body : requestUser)
  | delete (path : String) (query : Query)
  | unmarshal (target : Target) (data : Bytes)

/-- Whether an event is a transport call. -/
def Event.isCall : Event → Bool
  | Event.get _ _ => true
  | Event.post _ _ => true
  | Event.delete _ _ => true
  | Event.unmarshal _ _ => false

/-- The transport calls of a log, in order, decode attempts left out. -/
def transportCalls (log : List Event) : List Event :=
  log.filter Event.isCall

/-- The number of `Get`/`Post`/`Delete` calls in a log. -/
def callCount (log : List Event) : Nat :=
  (transportCalls log).length

/-- A call-counting transport double: behaves as `c` and appends every call to the log. -/
def countingClient {σ : Type} (c : HTTPClient σ) : HTTPClient (σ × List Event) where
  Get path query st :=
    ((c.Get path query st.1).1, ((c.Get path query st.1).2, st.2 ++ [Event.get path query]))
  Post path body st :=
    ((c.Post path body st.1).1, ((c.Post path body st.1).2, st.2 ++ [Event.post path body]))
  Delete path query st :=
    ((c.Delete path query st.1).1, ((c.Delete path query st.1).2, st.2 ++ [Event.delete path query]))

/-- A recording codec double: behaves as `j` and appends every decode attempt to the log. -/
def countingCodec {σ : Type} (j : JSONCodec σ) : JSONCodec (σ × List Event) where
  UnmarshalUser data target st :=
    ((j.UnmarshalUser data target st.1).1,
      ((j.UnmarshalUser data target st.1).2, st.2 ++ [Event.unmarshal Target.user data]))
  UnmarshalUserList data target st :=
    ((j.UnmarshalUserList data target st.1).1,
      ((j.UnmarshalUserList data target st.1).2, st.2 ++ [Event.unmarshal Target.userList data]))
  UnmarshalSearch data target st :=
    ((j.UnmarshalSearch data target st.1).1,
      ((j.UnmarshalSearch data target st.1).2, st.2 ++ [Event.unmarshal Target.search data]))

/-- The client under observation: `UserAPI` bound to the counting double of `c`. -/
def countingAPI {σ : Type} (c : HTTPClient σ) : UserAPI (σ × List Event) :=
  { httpClient := countingClient c }

/-! ## Concrete doubles used to exercise the theorems -/

/-- A stateless transport that answers every call with the same Go pair. -/
def constClient (r : Bytes × Option GoError) : HTTPClient Unit where
  Get _ _ s := (r, s)
  Post _ _ s := (r, s)
  Delete _ _ s := (r, s)

/-- A stateless codec that ignores the body: it yields the given values and error. -/
def constCodec (u : User) (l : UserList) (r : userSearchResponse) (e : Option GoError) :
    JSONCodec Unit where
  UnmarshalUser _ _ s := ((u, e), s)
  UnmarshalUserList _ _ s := ((l, e), s)
  UnmarshalSearch _ _ s := ((r, e), s)

/-- A simulated server failure, as the transport reports it. -/
def serverError : GoError :=
  GoError.httpError { StatusCode := 500, Code := "server_error", Message := "Server Error" }

/-- A codec double whose decoded user list carries the cursor "next". -/
def pagingCodec : JSONCodec Unit :=
  constCodec {} { Users := [{ ID := "a" }], ScrollParam := "next" } {} none

/-- A decode failure, as the codec reports it. -/
def decodeError : GoError :=
  GoError.other "invalid character"

/-- A codec double that fails on every body, leaving half-filled values in the targets. -/
def failingCodec : JSONCodec Unit :=
  constCodec { Name := "half" } { Page := 1 } { Users := [{ ID := "p" }] } (some decodeError)

/-! ## Helper lemmas -/

/-- The single-resource path is never the search path. -/
theorem single_path_ne_search (id : String) : "/users/" ++ id ≠ "/users" := by
  intro h
  have hl := congrArg String.length h
  rw [String.length_append] at hl
  have h7 : "/users/".length = 7 := by decide
  have h6 : "/users".length = 6 := by decide
  omega

/-- The first case of the `switch` of `find`. -/
theorem find_of_id {σ : Type} (api : UserAPI σ) (j : JSONCodec σ) (params : UserIdentifiers)
    (s : σ) (h : params.ID ≠ "") :
    api.find j params s
      = unmarshalToUser j (api.httpClient.Get ("/users/" ++ params.ID) Query.nil s).1
          (api.httpClient.Get ("/users/" ++ params.ID) Query.nil s).2 := by
  simp [UserAPI.find, h]

/-- The second case of the `switch` of `find`. -/
theorem find_of_search {σ : Type} (api : UserAPI σ) (j : JSONCodec σ) (params : UserIdentifiers)
    (s : σ) (h1 : params.ID = "") (h2 : params.UserID ≠ "" ∨ params.Email ≠ "") :
    api.find j params s
      = unmarshalListToUser j (api.httpClient.Get "/users" (Query.identifiers params) s).1
          (api.httpClient.Get "/users" (Query.identifiers params) s).2 := by
  unfold UserAPI.find
  rw [if_neg (by simp [h1]), if_pos h2]

/-- The fall-through of the `switch` of `find`. -/
theorem find_of_none {σ : Type} (api : UserAPI σ) (j : JSONCodec σ) (params : UserIdentifiers)
    (s : σ) (h1 : params.ID = "") (h2 : params.UserID = "") (h3 : params.Email = "") :
    api.find j params s = (({}, some (GoError.errorString "Missing User Identifier")), s) := by
  simp [UserAPI.find, h1, h2, h3]

/-- The counting doubles change neither what `unmarshalToUser` returns nor what it
does to the collaborators' own state. -/
theorem unmarshalToUser_counting {σ : Type} (j : JSONCodec σ) (r : Bytes × Option GoError)
    (s : σ) (log : List Event) :
    (unmarshalToUser (countingCodec j) r (s, log)).1 = (unmarshalToUser j r s).1
    ∧ (unmarshalToUser (countingCodec j) r (s, log)).2.1 = (unmarshalToUser j r s).2 := by
  obtain ⟨data, e⟩ := r
  cases e <;> simp [unmarshalToUser, countingCodec]

theorem unmarshalListToUser_counting {σ : Type} (j : JSONCodec σ)
    (r : Bytes × Option GoError) (s : σ) (log : List Event) :
    (unmarshalListToUser (countingCodec j) r (s, log)).1 = (unmarshalListToUser j r s).1
    ∧ (unmarshalListToUser (countingCodec j) r (s, log)).2.1
        = (unmarshalListToUser j r s).2 := by
  obtain ⟨data, e⟩ := r
  cases e with
  | some e => simp [unmarshalListToUser]
  | none =>
    simp only [unmarshalListToUser, countingCodec]
    cases hd : (j.UnmarshalSearch data {} s).1.2 with
    | some e => simp
    | none =>
      cases hu : (j.UnmarshalSearch data {} s).1.1.Users with
      | nil => simp
      | cons u rest => simp

/-- The counting doubles change neither what `find` returns nor what it does to the
collaborators' own state. -/
theorem find_counting_sim {σ : Type} (c : HTTPClient σ) (j : JSONCodec σ)
    (params : UserIdentifiers) (s : σ) (log : List Event) :
    ((countingAPI c).find (countingCodec j) params (s, log)).1
        = (UserAPI.find { httpClient := c } j params s).1
    ∧ ((countingAPI c).find (countingCodec j) params (s, log)).2.1
        = (UserAPI.find { httpClient := c } j params s).2 := by
  by_cases h1 : params.ID = ""
  · by_cases h2 : params.UserID ≠ "" ∨ params.Email ≠ ""
    · rw [find_of_search _ _ _ _ h1 h2, find_of_search _ _ _ _ h1 h2]
      exact unmarshalListToUser_counting j _ _ _
    · have h3 : params.UserID = "" := by
        by_contra h; exact h2 (Or.inl h)
      have h4 : params.Email = "" := by
        by_contra h; exact h2 (Or.inr h)
      rw [find_of_none _ _ _ _ h1 h3 h4, find_of_none _ _ _ _ h1 h3 h4]
      exact ⟨rfl, rfl⟩
  · rw [find_of_id _ _ _ _ h1, find_of_id _ _ _ _ h1]
    exact unmarshalToUser_counting j _ _ _

/-- The counting doubles change neither what `list` returns nor what it does to the
collaborators' own state. -/
theorem list_counting_sim {σ : Type} (c : HTTPClient σ) (j : JSONCodec σ)
    (params : userListParams) (s : σ) (log : List Event) :
    ((countingAPI c).list (countingCodec j) params (s, log)).1
        = (UserAPI.list { httpClient := c } j params s).1
    ∧ ((countingAPI c).list (countingCodec j) params (s, log)).2.1
        = (UserAPI.list { httpClient := c } j params s).2 := by
  simp only [UserAPI.list, countingAPI, countingClient]
  cases hg : (c.Get "/users" (Query.listParams params) s).1.2 <;> simp [countingCodec]

/-- The same for `scroll`. -/
theorem scroll_counting_sim {σ : Type} (c : HTTPClient σ) (j : JSONCodec σ)
    (scrollParam : String) (s : σ) (log : List Event) :
    ((countingAPI c).scroll (countingCodec j) scrollParam (s, log)).1
        = (UserAPI.scroll { httpClient := c } j scrollParam s).1
    ∧ ((countingAPI c).scroll (countingCodec j) scrollParam (s, log)).2.1
        = (UserAPI.scroll { httpClient := c } j scrollParam s).2 := by
  simp only [UserAPI.scroll, countingAPI, countingClient]
  cases hg : (c.Get "/users/scroll" (Query.scroll { ScrollParam := scrollParam }) s).1.2 <;>
    simp [countingCodec]

/-- The same for `save`. -/
theorem save_counting_sim {σ : Type} (c : HTTPClient σ) (j : JSONCodec σ)
    (user : User) (s : σ) (log : List Event) :
    ((countingAPI c).save (countingCodec j) user (s, log)).1
        = (UserAPI.save { httpClient := c } j user s).1
    ∧ ((countingAPI c).save (countingCodec j) user (s, log)).2.1
        = (UserAPI.save { httpClient := c } j user s).2 := by
  simp only [UserAPI.save, countingAPI, countingClient]
  exact unmarshalToUser_counting j _ _ _

/-- The same for `delete`. -/
theorem delete_counting_sim {σ : Type} (c : HTTPClient σ) (j : JSONCodec σ)
    (id : String) (s : σ) (log : List Event) :
    ((countingAPI c).delete (countingCodec j) id (s, log)).1
        = (UserAPI.delete { httpClient := c } j id s).1
    ∧ ((countingAPI c).delete (countingCodec j) id (s, log)).2.1
        = (UserAPI.delete { httpClient := c } j id s).2 := by
  simp only [UserAPI.delete, countingAPI, countingClient]
  cases hg : (c.Delete ("/users/" ++ id) Query.nil s).1.2 <;> simp [countingCodec]

/-- The transport calls `scroll` adds to a log: one `Get` on "/users/scroll" whose
query holds the cursor. -/
theorem scroll_calls {σ : Type} (c : HTTPClient σ) (j : JSONCodec σ) (scrollParam : String)
    (s : σ) (log : List Event) :
    transportCalls ((countingAPI c).scroll (countingCodec j) scrollParam (s, log)).2.2
      = transportCalls log
        ++ [Event.get "/users/scroll" (Query.scroll { ScrollParam := scrollParam })] := by
  simp only [UserAPI.scroll, countingAPI, countingClient]
  cases hg : (c.Get "/users/scroll" (Query.scroll { ScrollParam := scrollParam }) s).1.2 <;>
    simp [countingCodec, transportCalls, Event.isCall]

/-! ## Claims -/

/-- C1. When `ID`, `UserID` and `Email` are all empty, `find` returns the zero-valued
`User` and the error "Missing User Identifier", whatever the transport and the codec;
it leaves the collaborators' state untouched, and on the call-counting double the log
is unchanged: started from the empty log, the count of transport calls is 0. -/
theorem find_missing_identifier {σ : Type} (c : HTTPClient σ) (j : JSONCodec σ)
    (params : UserIdentifiers) (s : σ) (log : List Event)
    (hID : params.ID = "") (hUserID : params.UserID = "") (hEmail : params.Email = "") :
    UserAPI.find { httpClient := c } j params s
        = (({}, some (GoError.errorString "Missing User Identifier")), s)
    ∧ (countingAPI c).find (countingCodec j) params (s, log)
        = (({}, some (GoError.errorString "Missing User Identifier")), (s, log))
    ∧ callCount ((countingAPI c).find (countingCodec j) params (s, [])).2.2 = 0 := by
  refine ⟨?_, ?_, ?_⟩ <;> simp [UserAPI.find, hID, hUserID, hEmail, callCount, transportCalls]

theorem find_missing_identifier_witness :
    (({} : UserIdentifiers).ID = "" ∧ ({} : UserIdentifiers).UserID = ""
      ∧ ({} : UserIdentifiers).Email = "")
    ∧ callCount ((countingAPI (constClient ([], none))).find
        (countingCodec (constCodec {} {} {} none)) {} ((), [])).2.2 = 0 :=
  ⟨⟨rfl, rfl, rfl⟩,
    (find_missing_identifier (constClient ([], none)) (constCodec {} {} {} none) {} () []
      rfl rfl rfl).2.2⟩

/-- C2. When `ID` is not empty, whatever `UserID` and `Email` are, `find` issues
exactly one transport call, `Get` on "/users/" followed by the ID with a nil query;
no `Get` on the search path "/users" is in the log, with any query. -/
theorem find_by_id_single_get {σ : Type} (c : HTTPClient σ) (j : JSONCodec σ)
    (params : UserIdentifiers) (s : σ) (hID : params.ID ≠ "") :
    transportCalls ((countingAPI c).find (countingCodec j) params (s, [])).2.2
        = [Event.get ("/users/" ++ params.ID) Query.nil]
    ∧ callCount ((countingAPI c).find (countingCodec j) params (s, [])).2.2 = 1
    ∧ ∀ q : Query,
        Event.get "/users" q ∉ ((countingAPI c).find (countingCodec j) params (s, [])).2.2 := by
  have hne : ¬ ("/users" = "/users/" ++ params.ID) :=
    fun h => single_path_ne_search params.ID h.symm
  rw [find_of_id _ _ _ _ hID]
  simp only [countingAPI, countingClient, unmarshalToUser]
  cases hg : (c.Get ("/users/" ++ params.ID) Query.nil s).1.2 with
  | some e => simp [callCount, transportCalls, Event.isCall, hne]
  | none => simp [callCount, transportCalls, Event.isCall, countingCodec, hne]

theorem find_by_id_single_get_witness :
    ({ ID := "42", UserID := "u1", Email := "a@b.c" } : UserIdentifiers).ID ≠ ""
    ∧ transportCalls ((countingAPI (constClient ([], none))).find
        (countingCodec (constCodec {} {} {} none))
        { ID := "42", UserID := "u1", Email := "a@b.c" } ((), [])).2.2
        = [Event.get ("/users/" ++ "42") Query.nil] :=
  ⟨by decide,
    (find_by_id_single_get (constClient ([], none)) (constCodec {} {} {} none)
      { ID := "42", UserID := "u1", Email := "a@b.c" } () (by decide)).1⟩

/-- C3. When `ID` is empty and `UserID` or `Email` is not, `find` issues exactly one
transport call, `Get` on the search path "/users", whose query is the caller's
identifiers as given. -/
theorem find_by_search_single_get {σ : Type} (c : HTTPClient σ) (j : JSONCodec σ)
    (params : UserIdentifiers) (s : σ) (hID : params.ID = "")
    (hSome : params.UserID ≠ "" ∨ params.Email ≠ "") :
    transportCalls ((countingAPI c).find (countingCodec j) params (s, [])).2.2
        = [Event.get "/users" (Query.identifiers params)]
    ∧ callCount ((countingAPI c).find (countingCodec j) params (s, [])).2.2 = 1 := by
  rw [find_of_search _ _ _ _ hID hSome]
  simp only [countingAPI, countingClient, unmarshalListToUser]
  cases hg : (c.Get "/users" (Query.identifiers params) s).1.2 with
  | some e => simp [callCount, transportCalls, Event.isCall]
  | none =>
    simp only [countingCodec]
    cases hd : (j.UnmarshalSearch (c.Get "/users" (Query.identifiers params) s).1.1 {}
        (c.Get "/users" (Query.identifiers params) s).2).1.2 with
    | some e => simp [callCount, transportCalls, Event.isCall]
    | none =>
      cases hu : (j.UnmarshalSearch (c.Get "/users" (Query.identifiers params) s).1.1 {}
          (c.Get "/users" (Query.identifiers params) s).2).1.1.Users with
      | nil => simp [callCount, transportCalls, Event.isCall]
      | cons u rest => simp [callCount, transportCalls, Event.isCall]

theorem find_by_search_single_get_witness :
    (({ Email := "a@b.c" } : UserIdentifiers).ID = ""
      ∧ (({ Email := "a@b.c" } : UserIdentifiers).UserID ≠ ""
          ∨ ({ Email := "a@b.c" } : UserIdentifiers).Email ≠ ""))
    ∧ transportCalls ((countingAPI (constClient ([], none))).find
        (countingCodec (constCodec {} {} {} none)) { Email := "a@b.c" } ((), [])).2.2
        = [Event.get "/users" (Query.identifiers { Email := "a@b.c" })] :=
  ⟨⟨rfl, Or.inr (by decide)⟩,
    (find_by_search_single_get (constClient ([], none)) (constCodec {} {} {} none)
      { Email := "a@b.c" } () rfl (Or.inr (by decide))).1⟩

/-- C4. On the search path (empty `ID`, non-empty `UserID` or `Email`), when the
transport returns a body with a nil error and the body decodes without error to a
search response with zero users, `find` returns the zero-valued `User` and the
`HTTPError` with status 404, code "not_found" and message "User Not Found". -/
theorem find_search_empty_not_found {σ : Type} (c : HTTPClient σ) (j : JSONCodec σ)
    (params : UserIdentifiers) (s s1 s2 : σ) (data : Bytes) (resp : userSearchResponse)
    (hID : params.ID = "") (hSome : params.UserID ≠ "" ∨ params.Email ≠ "")
    (hGet : c.Get "/users" (Query.identifiers params) s = ((data, none), s1))
    (hDec : j.UnmarshalSearch data {} s1 = ((resp, none), s2))
    (hLen : resp.Users.length = 0) :
    UserAPI.find { httpClient := c } j params s
      = (({}, some (GoError.httpError
          { StatusCode := 404, Code := "not_found", Message := "User Not Found" })), s2) := by
  have hnil : resp.Users = [] := List.length_eq_zero.mp hLen
  rw [find_of_search _ _ _ _ hID hSome]
  simp [unmarshalListToUser, hGet, hDec, hnil]

theorem find_search_empty_not_found_witness :
    UserAPI.find { httpClient := constClient ([123, 125], none) }
        (constCodec {} {} { Users := [] } none) { UserID := "u1" } ()
      = (({}, some (GoError.httpError
          { StatusCode := 404, Code := "not_found", Message := "User Not Found" })), ()) :=
  find_search_empty_not_found (constClient ([123, 125], none))
    (constCodec {} {} { Users := [] } none) { UserID := "u1" } () () () [123, 125]
    { Users := [] } rfl (Or.inl (by decide)) rfl rfl rfl

/-- C5. On the search path, when the transport returns a body with a nil error and
the body decodes without error to a search response with a non-empty list of users,
`find` returns the element at index 0 of that list and a nil error, whatever the
rest of the list is. -/
theorem find_search_returns_first {σ : Type} (c : HTTPClient σ) (j : JSONCodec σ)
    (params : UserIdentifiers) (s s1 s2 : σ) (data : Bytes) (resp : userSearchResponse)
    (hID : params.ID = "") (hSome : params.UserID ≠ "" ∨ params.Email ≠ "")
    (hGet : c.Get "/users" (Query.identifiers params) s = ((data, none), s1))
    (hDec : j.UnmarshalSearch data {} s1 = ((resp, none), s2))
    (hLen : 0 < resp.Users.length) :
    UserAPI.find { httpClient := c } j params s = ((resp.Users[0], none), s2) := by
  rw [find_of_search _ _ _ _ hID hSome]
  obtain ⟨users⟩ := resp
  cases users with
  | nil => simp at hLen
  | cons u rest => simp [unmarshalListToUser, hGet, hDec]

theorem find_search_returns_first_witness :
    UserAPI.find { httpClient := constClient ([123, 125], none) }
        (constCodec {} {} { Users := [{ ID := "a" }, { ID := "b" }, { ID := "c" }] } none)
        { Email := "a@b.c" } ()
      = (({ ID := "a" }, none), ()) :=
  find_search_returns_first (constClient ([123, 125], none))
    (constCodec {} {} { Users := [{ ID := "a" }, { ID := "b" }, { ID := "c" }] } none)
    { Email := "a@b.c" } () () () [123, 125]
    { Users := [{ ID := "a" }, { ID := "b" }, { ID := "c" }] }
    rfl (Or.inr (by decide)) rfl rfl (by decide)

/-- C6. For each of find by ID, find by search, list, scroll, save and delete: when
the single transport call returns a non-nil error `e` (with whatever body), the
operation returns the zero-valued result together with exactly `e`, and the log of
the recording doubles grows by that one transport call only: no decode attempt and
no second transport call. -/
theorem transport_error_returned_unchanged {σ : Type} (c : HTTPClient σ) (j : JSONCodec σ)
    (s s1 : σ) (log : List Event) (data : Bytes) (e : GoError) :
    (∀ params : UserIdentifiers, params.ID ≠ "" →
        c.Get ("/users/" ++ params.ID) Query.nil s = ((data, some e), s1) →
        (countingAPI c).find (countingCodec j) params (s, log)
          = (({}, some e), (s1, log ++ [Event.get ("/users/" ++ params.ID) Query.nil])))
    ∧ (∀ params : UserIdentifiers, params.ID = "" →
        (params.UserID ≠ "" ∨ params.Email ≠ "") →
        c.Get "/users" (Query.identifiers params) s = ((data, some e), s1) →
        (countingAPI c).find (countingCodec j) params (s, log)
          = (({}, some e), (s1, log ++ [Event.get "/users" (Query.identifiers params)])))
    ∧ (∀ params : userListParams,
        c.Get "/users" (Query.listParams params) s = ((data, some e), s1) →
        (countingAPI c).list (countingCodec j) params (s, log)
          = (({}, some e), (s1, log ++ [Event.get "/users" (Query.listParams params)])))
    ∧ (∀ scrollParam : String,
        c.Get "/users/scroll" (Query.scroll { ScrollParam := scrollParam }) s
          = ((data, some e), s1) →
        (countingAPI c).scroll (countingCodec j) scrollParam (s, log)
          = (({}, some e), (s1, log ++ [Event.get "/users/scroll"
              (Query.scroll { ScrollParam := scrollParam })])))
    ∧ (∀ user : User,
        c.Post "/users" (ConvertUser user) s = ((data, some e), s1) →
        (countingAPI c).save (countingCodec j) user (s, log)
          = (({}, some e), (s1, log ++ [Event.post "/users" (ConvertUser user)])))
    ∧ (∀ id : String,
        c.Delete ("/users/" ++ id) Query.nil s = ((data, some e), s1) →
        (countingAPI c).delete (countingCodec j) id (s, log)
          = (({}, some e), (s1, log ++ [Event.delete ("/users/" ++ id) Query.nil]))) := by
  refine ⟨?_, ?_, ?_, ?_, ?_, ?_⟩
  · intro params hID hGet
    rw [find_of_id _ _ _ _ hID]
    simp [countingAPI, countingClient, hGet, unmarshalToUser]
  · intro params hID hSome hGet
    rw [find_of_search _ _ _ _ hID hSome]
    simp [countingAPI, countingClient, hGet, unmarshalListToUser]
  · intro params hGet
    simp [UserAPI.list, countingAPI, countingClient, hGet]
  · intro scrollParam hGet
    simp [UserAPI.scroll, countingAPI, countingClient, hGet]
  · intro user hPost
    simp [UserAPI.save, countingAPI, countingClient, hPost, unmarshalToUser]
  · intro id hDel
    simp [UserAPI.delete, countingAPI, countingClient, hDel]

theorem transport_error_returned_unchanged_witness :
    (countingAPI (constClient ([1], some serverError))).find
        (countingCodec (constCodec { ID := "x" } {} {} none)) { ID := "42" } ((), [])
      = (({}, some serverError), ((), [] ++ [Event.get ("/users/" ++ "42") Query.nil]))
    ∧ (countingAPI (constClient ([1], some serverError))).find
        (countingCodec (constCodec { ID := "x" } {} {} none)) { UserID := "u1" } ((), [])
      = (({}, some serverError),
          ((), [] ++ [Event.get "/users" (Query.identifiers { UserID := "u1" })]))
    ∧ (countingAPI (constClient ([1], some serverError))).list
        (countingCodec (constCodec { ID := "x" } {} {} none)) { Page := 2 } ((), [])
      = (({}, some serverError),
          ((), [] ++ [Event.get "/users" (Query.listParams { Page := 2 })]))
    ∧ (countingAPI (constClient ([1], some serverError))).scroll
        (countingCodec (constCodec { ID := "x" } {} {} none)) "cur" ((), [])
      = (({}, some serverError),
          ((), [] ++ [Event.get "/users/scroll" (Query.scroll { ScrollParam := "cur" })]))
    ∧ (countingAPI (constClient ([1], some serverError))).save
        (countingCodec (constCodec { ID := "x" } {} {} none)) { Email := "a@b.c" } ((), [])
      = (({}, some serverError),
          ((), [] ++ [Event.post "/users" (ConvertUser { Email := "a@b.c" })]))
    ∧ (countingAPI (constClient ([1], some serverError))).delete
        (countingCodec (constCodec { ID := "x" } {} {} none)) "42" ((), [])
      = (({}, some serverError), ((), [] ++ [Event.delete ("/users/" ++ "42") Query.nil])) :=
  have h := transport_error_returned_unchanged (constClient ([1], some serverError))
    (constCodec { ID := "x" } {} {} none) () () [] [1] serverError
  ⟨h.1 { ID := "42" } (by decide) rfl,
    h.2.1 { UserID := "u1" } rfl (Or.inl (by decide)) rfl,
    h.2.2.1 { Page := 2 } rfl,
    h.2.2.2.1 "cur" rfl,
    h.2.2.2.2.1 { Email := "a@b.c" } rfl,
    h.2.2.2.2.2 "42" rfl⟩

/-- C7. `save` of a `User` in which only `Email` and `Name` are set (both non-empty,
every other field at its zero value) issues exactly one transport call, a `Post` on
"/users" whose body is the converted record, and the JSON object of that body has
exactly the keys "email" and "name": there is no always-present key, and none of the
thirteen other keys of the request record appears. -/
theorem save_email_name_only_keys {σ : Type} (c : HTTPClient σ) (j : JSONCodec σ) (s : σ)
    (email name : String) (hEmail : email ≠ "") (hName : name ≠ "") :
    transportCalls ((countingAPI c).save (countingCodec j)
        { Email := email, Name := name } (s, [])).2.2
      = [Event.post "/users" (ConvertUser { Email := email, Name := name })]
    ∧ marshalKeys (ConvertUser { Email := email, Name := name }) = ["email", "name"]
    ∧ (∀ k ∈ ["id", "phone", "user_id", "signed_up_at", "remote_created_at",
          "last_request_at", "last_seen_ip", "unsubscribed_from_emails", "companies",
          "custom_attributes", "update_last_request_at", "new_session",
          "last_seen_user_agent"],
        k ∉ marshalKeys (ConvertUser { Email := email, Name := name })) := by
  have hk : marshalKeys (ConvertUser { Email := email, Name := name }) = ["email", "name"] := by
    simp [marshalKeys, ConvertUser, keyIfString, keyIfInt, keyIfPtr, keyIfLen, hEmail, hName]
  refine ⟨?_, hk, ?_⟩
  · simp only [UserAPI.save, countingAPI, countingClient, unmarshalToUser]
    cases hp : (c.Post "/users" (ConvertUser { Email := email, Name := name }) s).1.2 <;>
      simp [countingCodec, transportCalls, Event.isCall]
  · rw [hk]
    decide

theorem save_email_name_only_keys_witness :
    ("ada@example.com" ≠ "" ∧ "Ada" ≠ "")
    ∧ marshalKeys (ConvertUser { Email := "ada@example.com", Name := "Ada" })
        = ["email", "name"] :=
  ⟨⟨by decide, by decide⟩,
    (save_email_name_only_keys (constClient ([], none)) (constCodec {} {} {} none) ()
      "ada@example.com" "Ada" (by decide) (by decide)).2.1⟩

/-- C8. For every cursor, the empty one included, `scroll` issues exactly one
transport call, `Get` on "/users/scroll" whose query holds the cursor as given. Two
calls in a row, the second made in whatever state the first left the collaborators,
issue two calls, each with its own cursor; when the cursors differ, so do the two
queries handed to the transport. -/
theorem scroll_passes_cursor {σ : Type} (c : HTTPClient σ) (j : JSONCodec σ) (s : σ)
    (c1 c2 : String) :
    transportCalls ((countingAPI c).scroll (countingCodec j) c1 (s, [])).2.2
      = [Event.get "/users/scroll" (Query.scroll { ScrollParam := c1 })]
    ∧ transportCalls ((countingAPI c).scroll (countingCodec j) c2
        ((countingAPI c).scroll (countingCodec j) c1 (s, [])).2).2.2
      = [Event.get "/users/scroll" (Query.scroll { ScrollParam := c1 }),
         Event.get "/users/scroll" (Query.scroll { ScrollParam := c2 })]
    ∧ (c1 ≠ c2 →
        Query.scroll { ScrollParam := c1 } ≠ Query.scroll { ScrollParam := c2 }) := by
  have h1 := scroll_calls c j c1 s []
  refine ⟨?_, ?_, ?_⟩
  · simpa [transportCalls] using h1
  · have h2 := scroll_calls c j c2
      ((countingAPI c).scroll (countingCodec j) c1 (s, [])).2.1
      ((countingAPI c).scroll (countingCodec j) c1 (s, [])).2.2
    rw [h1] at h2
    simpa [transportCalls] using h2
  · intro hne h
    apply hne
    injection h with h
    injection h

theorem scroll_passes_cursor_witness :
    (UserAPI.scroll { httpClient := constClient ([], none) } pagingCodec "" ()).1.1.ScrollParam
      = "next"
    ∧ "" ≠ (UserAPI.scroll { httpClient := constClient ([], none) } pagingCodec "" ()).1.1.ScrollParam
    ∧ Query.scroll { ScrollParam := "" }
      ≠ Query.scroll { ScrollParam :=
          (UserAPI.scroll { httpClient := constClient ([], none) } pagingCodec "" ()).1.1.ScrollParam } :=
  ⟨rfl, by decide,
    (scroll_passes_cursor (constClient ([], none)) pagingCodec () ""
      (UserAPI.scroll { httpClient := constClient ([], none) } pagingCodec "" ()).1.1.ScrollParam).2.2
      (by decide)⟩

/-- C9. When the transport call returns a body with a nil error, the result of
find by ID, list, scroll, save and delete is exactly what the codec yields for that
body decoded into a zero-valued target: the value as the codec left it and the
codec's error, nil or not. These five paths add no error of their own. On the search
path of `find`, a body whose decoding fails yields the zero-valued `User` and the
codec's error, not the synthesized not-found. -/
theorem success_result_is_codec_result {σ : Type} (c : HTTPClient σ) (j : JSONCodec σ)
    (s s1 : σ) (data : Bytes) :
    (∀ params : UserIdentifiers, params.ID ≠ "" →
        c.Get ("/users/" ++ params.ID) Query.nil s = ((data, none), s1) →
        UserAPI.find { httpClient := c } j params s = j.UnmarshalUser data {} s1)
    ∧ (∀ params : userListParams,
        c.Get "/users" (Query.listParams params) s = ((data, none), s1) →
        UserAPI.list { httpClient := c } j params s = j.UnmarshalUserList data {} s1)
    ∧ (∀ scrollParam : String,
        c.Get "/users/scroll" (Query.scroll { ScrollParam := scrollParam }) s
          = ((data, none), s1) →
        UserAPI.scroll { httpClient := c } j scrollParam s = j.UnmarshalUserList data {} s1)
    ∧ (∀ user : User,
        c.Post "/users" (ConvertUser user) s = ((data, none), s1) →
        UserAPI.save { httpClient := c } j user s = j.UnmarshalUser data {} s1)
    ∧ (∀ id : String,
        c.Delete ("/users/" ++ id) Query.nil s = ((data, none), s1) →
        UserAPI.delete { httpClient := c } j id s = j.UnmarshalUser data {} s1)
    ∧ (∀ (params : UserIdentifiers) (resp : userSearchResponse) (e : GoError) (s2 : σ),
        params.ID = "" → (params.UserID ≠ "" ∨ params.Email ≠ "") →
        c.Get "/users" (Query.identifiers params) s = ((data, none), s1) →
        j.UnmarshalSearch data {} s1 = ((resp, some e), s2) →
        UserAPI.find { httpClient := c } j params s = (({}, some e), s2)) := by
  refine ⟨?_, ?_, ?_, ?_, ?_, ?_⟩
  · intro params hID hGet
    rw [find_of_id _ _ _ _ hID]
    simp [hGet, unmarshalToUser]
  · intro params hGet
    simp [UserAPI.list, hGet]
  · intro scrollParam hGet
    simp [UserAPI.scroll, hGet]
  · intro user hPost
    simp [UserAPI.save, hPost, unmarshalToUser]
  · intro id hDel
    simp [UserAPI.delete, hDel]
  · intro params resp e s2 hID hSome hGet hDec
    rw [find_of_search _ _ _ _ hID hSome]
    simp [unmarshalListToUser, hGet, hDec]

theorem success_result_is_codec_result_witness :
    UserAPI.find { httpClient := constClient ([123], none) } failingCodec { ID := "42" } ()
      = (({ Name := "half" }, some decodeError), ())
    ∧ UserAPI.list { httpClient := constClient ([123], none) } failingCodec { Page := 2 } ()
      = (({ Page := 1 }, some decodeError), ())
    ∧ UserAPI.scroll { httpClient := constClient ([123], none) } failingCodec "cur" ()
      = (({ Page := 1 }, some decodeError), ())
    ∧ UserAPI.save { httpClient := constClient ([123], none) } failingCodec { Email := "a@b.c" } ()
      = (({ Name := "half" }, some decodeError), ())
    ∧ UserAPI.delete { httpClient := constClient ([123], none) } failingCodec "42" ()
      = (({ Name := "half" }, some decodeError), ())
    ∧ UserAPI.find { httpClient := constClient ([123], none) } failingCodec { UserID := "u1" } ()
      = (({}, some decodeError), ()) :=
  have h := success_result_is_codec_result (constClient ([123], none)) failingCodec () () [123]
  ⟨h.1 { ID := "42" } (by decide) rfl,
    h.2.1 { Page := 2 } rfl,
    h.2.2.1 "cur" rfl,
    h.2.2.2.1 { Email := "a@b.c" } rfl,
    h.2.2.2.2.1 "42" rfl,
    h.2.2.2.2.2 { UserID := "u1" } { Users := [{ ID := "p" }] } decodeError ()
      rfl (Or.inl (by decide)) rfl rfl⟩

/-- C10. For every id, the empty string included, `delete` issues exactly one
transport call, `Delete` on "/users/" followed by the id with a nil query; when the
transport returns a body with a nil error and the body decodes without error, it
returns the decoded `User` and a nil error. No check is made on the id: the empty id
goes to the transport as `Delete` on "/users/". -/
theorem delete_single_call {σ : Type} (c : HTTPClient σ) (j : JSONCodec σ) (id : String)
    (s : σ) :
    transportCalls ((countingAPI c).delete (countingCodec j) id (s, [])).2.2
      = [Event.delete ("/users/" ++ id) Query.nil]
    ∧ (∀ (data : Bytes) (u : User) (s1 s2 : σ),
        c.Delete ("/users/" ++ id) Query.nil s = ((data, none), s1) →
        j.UnmarshalUser data {} s1 = ((u, none), s2) →
        UserAPI.delete { httpClient := c } j id s = ((u, none), s2))
    ∧ transportCalls ((countingAPI c).delete (countingCodec j) "" (s, [])).2.2
      = [Event.delete "/users/" Query.nil] := by
  have hcalls : ∀ i : String,
      transportCalls ((countingAPI c).delete (countingCodec j) i (s, [])).2.2
        = [Event.delete ("/users/" ++ i) Query.nil] := by
    intro i
    simp only [UserAPI.delete, countingAPI, countingClient]
    cases hg : (c.Delete ("/users/" ++ i) Query.nil s).1.2 <;>
      simp [countingCodec, transportCalls, Event.isCall]
  refine ⟨hcalls id, ?_, ?_⟩
  · intro data u s1 s2 hDel hDec
    simp [UserAPI.delete, hDel, hDec]
  · have h := hcalls ""
    have hp : "/users/" ++ "" = "/users/" := by decide
    rw [hp] at h
    exact h

theorem delete_single_call_witness :
    UserAPI.delete { httpClient := constClient ([123, 125], none) }
        (constCodec { ID := "gone" } {} {} none) "" ()
      = (({ ID := "gone" }, none), ()) :=
  (delete_single_call (constClient ([123, 125], none)) (constCodec { ID := "gone" } {} {} none)
    "" ()).2.1 [123, 125] { ID := "gone" } () () rfl rfl

end Intercom
